import Mathlib

/-
Shallow embedding of the sknSensors-IRService IR driver (src/ir_driver.ino).
Arduino String values are modelled as List Char; uint16_t and uint64_t
arithmetic is Nat with an explicit mod where the C code can wrap; the
Homie / IRremoteESP8266 library boundary (irsend.sendX, setProperty,
resultToHexidecimal) is modelled as explicit outputs (hardware-call values,
published strings) rather than side effects.  Constants named kSomething are
the IRremoteESP8266 header constants the sketch uses; they are not defined in
this repository.
-/

namespace IRService

/- ---------- character classification and numeric conversions ---------- -/

/-- C isxdigit: decimal digits and the letters a-f, A-F. -/
def isHexDigitChar (c : Char) : Bool :=
  c.isDigit || (decide ('A' ≤ c) && decide (c ≤ 'F')) || (decide ('a' ≤ c) && decide (c ≤ 'f'))

/-- C isspace, as used by atol and strtoul to skip leading whitespace. -/
def isSpaceChar (c : Char) : Bool :=
  c == ' ' || c == '\t' || c == '\n' || c == Char.ofNat 11 || c == Char.ofNat 12 || c == '\r'

/-- Value of one hex digit, mirroring the three branches in getUInt64fromHex
(isdigit, isupper, lowercase). -/
def hexDigitVal (c : Char) : Nat :=
  if c.isDigit then c.toNat - 48
  else if c.isUpper then c.toNat - 65 + 10
  else c.toNat - 97 + 10

/-- Accumulate the longest leading run of decimal digits (atol body). -/
def digitsRunVal : List Char → Nat → Nat
  | c :: t, acc => if c.isDigit then digitsRunVal t (acc * 10 + (c.toNat - 48)) else acc
  | [], acc => acc

/-- C atol, the implementation behind Arduino String.toInt: skip whitespace,
optional sign, then the longest run of decimal digits (0 if there is none). -/
def atol (s : List Char) : Int :=
  match s.dropWhile isSpaceChar with
  | '-' :: t => - Int.ofNat (digitsRunVal t 0)
  | '+' :: t => Int.ofNat (digitsRunVal t 0)
  | s1 => Int.ofNat (digitsRunVal s1 0)

/-- String.toInt stored into a uint16_t: the long value reduced mod 2^16
(the C unsigned conversion). -/
def toIntU16 (s : List Char) : Nat := (atol s % 65536).toNat

/-- Skip a leading 0x or 0X, exactly as getUInt64fromHex and strtoul
(base 16) do: only when the first char is 0 and the second is x or X. -/
def strip0x : List Char → List Char
  | '0' :: c :: t => if c = 'x' ∨ c = 'X' then t else '0' :: c :: t
  | s => s

/-- Accumulate the longest leading run of hex digits (strtoul base-16 body). -/
def hexRunVal : List Char → Nat → Nat
  | c :: t, acc => if isHexDigitChar c then hexRunVal t (acc * 16 + hexDigitVal c) else acc
  | [], acc => acc

/-- C strtoul(s, NULL, 16) stored into a uint16_t: skip whitespace, optional
sign (a minus negates in unsigned long arithmetic, mod 2^32), optional 0x,
longest hex run; then the uint16_t store reduces mod 2^16. -/
def strtoul16U16 (s : List Char) : Nat :=
  match s.dropWhile isSpaceChar with
  | '-' :: t => ((2 ^ 32 - hexRunVal (strip0x t) 0 % 2 ^ 32) % 2 ^ 32) % 65536
  | '+' :: t => (hexRunVal (strip0x t) 0 % 2 ^ 32) % 65536
  | s1 => (hexRunVal (strip0x s1) 0 % 2 ^ 32) % 65536

/- ---------- ir_driver.ino lines 282-299: getUInt64fromHex ---------- -/

/-- The digit loop of getUInt64fromHex: walks the hex-digit run, multiplying
by 16 and adding each digit in uint64_t arithmetic (mod 2^64), and stops at
the first non-hex character, returning the accumulator. -/
def hexLoop64 : List Char → Nat → Nat
  | c :: t, result =>
      if isHexDigitChar c then hexLoop64 t ((result * 16 + hexDigitVal c) % 2 ^ 64) else result
  | [], result => result

/-- ir_driver.ino lines 282-299: parse a hex string into a uint64_t,
skipping an optional 0x/0X and ignoring anything after the digit run. -/
def getUInt64fromHex (str : List Char) : Nat := hexLoop64 (strip0x str) 0

/-- Mathematical value of a list of hex digits (most significant first),
the specification-side counterpart of hexLoop64 without the wrapping. -/
def hexVal (l : List Char) : Nat := l.foldl (fun a c => a * 16 + hexDigitVal c) 0

/- ---------- ir_driver.ino lines 51-59: countValuesInStr ---------- -/

/-- One indexOf probe per iteration of the do/while in countValuesInStr:
the loop body runs once per separator found plus once for the final failed
probe, so this helper returns (number of separators) + 1. -/
def countValsAux (sep : Char) : List Char → Nat
  | [] => 1
  | c :: rest => if c = sep then 1 + countValsAux sep rest else countValsAux sep rest

/-- ir_driver.ino lines 51-59: count starts at 1 and is incremented once per
indexOf probe of the do/while, giving (number of separators) + 2. -/
def countValuesInStr (str : List Char) (sep : Char) : Nat := 1 + countValsAux sep str

/- ---------- the comma-walking loops shared by the three codecs ---------- -/

/-- One indexOf(',', start_from) / substring step: the text before the first
comma, and the remainder after it (none when indexOf returns -1, in which
case substring clamps to the end of the string). -/
def breakAtComma : List Char → List Char × Option (List Char)
  | [] => ([], none)
  | c :: rest =>
      if c = ',' then ([], some rest)
      else (c :: (breakAtComma rest).1, (breakAtComma rest).2)

/-- The do/while conversion loop of the codecs: starting from a position,
take the substring up to each comma in turn, with the final iteration (after
indexOf returns -1) taking the rest of the string.  Yields the list of
comma-delimited tokens; its length is (number of commas) + 1. -/
def tokens : List Char → List (List Char)
  | [] => [[]]
  | c :: rest =>
      if c = ',' then [] :: tokens rest
      else
        match tokens rest with
        | t :: ts => (c :: t) :: ts
        | [] => [[c]]

/- ---------- decimal/hex rendering (IRutils uint64ToString, String(int)) ---------- -/

/-- Digit character: '0' + d for d < 10, else ('A' - 10) + d, as in the
library uint64ToString. -/
def digitOut (d : Nat) : Char :=
  if d < 10 then Char.ofNat (48 + d) else Char.ofNat (55 + d)

/-- The do/while of uint64ToString, emitting digits least significant first;
the first argument is fuel bounding the number of iterations (input itself
is always enough, since input strictly shrinks by a factor of base ≥ 2). -/
def uint64ToStrAux (base : Nat) : Nat → Nat → List Char
  | 0, _ => []
  | fuel + 1, input =>
      if input = 0 then []
      else uint64ToStrAux base fuel (input / base) ++ [digitOut (input % base)]

/-- IRutils uint64ToString(input, base): decimal/hex rendering without
leading zeros; 0 renders as "0" (the do/while emits at least one digit). -/
def uint64ToString (input base : Nat) : List Char :=
  if input = 0 then ['0'] else uint64ToStrAux base input input

/-- Arduino String(uint16_t or similar): decimal rendering. -/
def natToString (n : Nat) : List Char := uint64ToString n 10

/-- Arduino String(int): decimal rendering with a minus sign, so that the
UNKNOWN decode type (-1) renders as "-1". -/
def intToString (i : Int) : List Char :=
  if i < 0 then '-' :: uint64ToString i.natAbs 10 else uint64ToString i.toNat 10

/- ---------- IRremoteESP8266 library constants used by the sketch ---------- -/

def kProntoMinLength : Nat := 6
def kRawTick : Nat := 2
def UNKNOWN : Int := -1

def kSingleRepeat : Nat := 1
def kSonyMinRepeat : Nat := 2
def kAiwaRcT501MinRepeats : Nat := 1
def kMitsubishiMinRepeat : Nat := kSingleRepeat
def kDishMinRepeat : Nat := 3
def kSherwoodMinRepeat : Nat := kSingleRepeat
def kGicableMinRepeat : Nat := kSingleRepeat

def kRC5Bits : Nat := 12
def kRC6Mode0Bits : Nat := 20
def kNECBits : Nat := 32
def kSony12Bits : Nat := 12
def kPanasonicBits : Nat := 48
def kJvcBits : Nat := 16
def kSamsungBits : Nat := 32
def kWhynterBits : Nat := 32
def kAiwaRcT501Bits : Nat := 15
def kLgBits : Nat := 28
def kMitsubishiBits : Nat := 16
def kDishBits : Nat := 16
def kSharpBits : Nat := 13
def kCoolixBits : Nat := 24
def kDenonBits : Nat := 15
def kSherwoodBits : Nat := 32
def kRCMMBits : Nat := 24
def kSanyoLC7461Bits : Nat := 42
def kRC5XBits : Nat := 13
def kNikaiBits : Nat := 24
def kMideaBits : Nat := 48
def kMagiquestBits : Nat := 56
def kLasertagBits : Nat := 13
def kGicableBits : Nat := 16
def kLutronBits : Nat := 35
def kPioneerBits : Nat := 64

/-- Library hasACState: decode types carrying an AC state array rather than
a scalar code (IRutils; none of them appears in the dispatch switch). -/
def acStateProtocols : List Int :=
  [16, 18, 20, 24, 27, 28, 32, 33, 38, 40, 41, 42, 44, 45, 46, 48, 49, 52, 53]

def hasACState (dt : Int) : Bool := acStateProtocols.contains dt

/- ---------- hardware-call values (the irsend.sendX boundary) ---------- -/

/-- The numeric-send entry points of the IRsend library that the dispatch
switch calls (RC5X reuses sendRC5, as in the source). -/
inductive SendFn where
  | sendRC5 | sendRC6 | sendNEC | sendSony | sendPanasonic64 | sendJVC
  | sendSAMSUNG | sendWhynter | sendAiwaRCT501 | sendLG | sendMitsubishi
  | sendDISH | sendSharpRaw | sendCOOLIX | sendDenon | sendSherwood
  | sendRCMM | sendSanyoLC7461 | sendNikai | sendMidea | sendMagiQuest
  | sendLasertag | sendMitsubishi2 | sendGICable | sendLutron | sendPioneer
  | sendLG2
  deriving DecidableEq, BEq

/-- One hardware send: either a scalar-code send (code, bits, repeats) or a
long-form send of a parsed value array and its element count. -/
inductive HardwareCall where
  | generic : SendFn → Nat → Nat → Nat → HardwareCall
  | pronto : List Nat → Nat → Nat → HardwareCall
  | raw : List Nat → Nat → Nat → HardwareCall
  | gc : List Nat → Nat → HardwareCall
  deriving DecidableEq, BEq

/- ---------- ir_driver.ino lines 94-127: parseStringAndSendGC ---------- -/

/-- The conventional GlobalCache device-addressing lead-in "1:1,1,". -/
def gcTag : List Char := ['1', ':', '1', ',', '1', ',']

/-- Lines 100-103: remove the leading "1:1,1," if present (once). -/
def gcStrip (str : List Char) : List Char :=
  if gcTag.isPrefixOf str then str.drop 6 else str

/-- Lines 94-127: strip the tag, convert every comma-delimited token with
toInt, send the array with its final loop count, succeed iff count > 0. -/
def parseStringAndSendGC (str : List Char) : Bool × List HardwareCall :=
  (decide (0 < ((tokens (gcStrip str)).map toIntU16).length),
   [HardwareCall.gc ((tokens (gcStrip str)).map toIntU16)
      ((tokens (gcStrip str)).map toIntU16).length])

/-- Line 106/109: the element count malloc-ed for the GC working buffer. -/
def gcAllocSize (str : List Char) : Nat := countValuesInStr (gcStrip str) ','

/-- Lines 112-120: the number of elements the GC conversion loop writes. -/
def gcWrittenCount (str : List Char) : Nat :=
  ((tokens (gcStrip str)).map toIntU16).length

/- ---------- ir_driver.ino lines 144-185: parseStringAndSendPronto ---------- -/

/-- Line 154: str.startsWith("R") || str.startsWith("r"). -/
def prontoEmbedded (str : List Char) : Bool :=
  match str with
  | c :: _ => c == 'R' || c == 'r'
  | [] => false

/-- Lines 162-185: the length check against kProntoMinLength, then the hex
conversion loop over loopStr and the sendPronto call with the loop count and
the repeat value in force. -/
def prontoCore (loopStr : List Char) (cnt reps : Nat) : Bool × List HardwareCall :=
  if cnt < kProntoMinLength then (false, [])
  else
    (decide (0 < ((tokens loopStr).map strtoul16U16).length),
     [HardwareCall.pronto ((tokens loopStr).map strtoul16U16)
        ((tokens loopStr).map strtoul16U16).length reps])

/-- Lines 144-185: count the values; if the payload starts with R/r, the
text between position 1 and the first comma (toInt, decimal) replaces the
caller-supplied repeats, the conversion loop starts after that comma
(start_from stays 0 when there is no comma, i.e. indexOf returned -1), and
the count is decremented; then prontoCore. -/
def parseStringAndSendPronto (str : List Char) (repeats : Nat) : Bool × List HardwareCall :=
  if prontoEmbedded str then
    match breakAtComma str with
    | (tok, some rest) =>
        prontoCore rest (countValuesInStr str ',' - 1) (toIntU16 (tok.drop 1))
    | (tok, none) =>
        prontoCore str (countValuesInStr str ',' - 1) (toIntU16 (tok.drop 1))
  else prontoCore str (countValuesInStr str ',') repeats

/- ---------- ir_driver.ino lines 196-231: parseStringAndSendRaw ---------- -/

/-- Lines 218-230: convert every token of loopStr with toInt and call
sendRaw with the loop count and the frequency. -/
def rawCore (loopStr : List Char) (freq : Nat) : Bool × List HardwareCall :=
  (decide (0 < ((tokens loopStr).map toIntU16).length),
   [HardwareCall.raw ((tokens loopStr).map toIntU16)
      ((tokens loopStr).map toIntU16).length freq])

/-- Lines 196-231: bail out when countValuesInStr reports fewer than 2;
otherwise the first token (up to indexOf(',', 0), the whole string when
there is no comma) is the frequency via toInt, and the conversion loop runs
from start_from = index + 1 (position 0 when indexOf returned -1). -/
def parseStringAndSendRaw (str : List Char) : Bool × List HardwareCall :=
  if countValuesInStr str ',' < 2 then (false, [])
  else
    match breakAtComma str with
    | (freqTok, some rest) => rawCore rest (toIntU16 freqTok)
    | (freqTok, none) => rawCore str (toIntU16 freqTok)

/-- Line 207/210: the element count malloc-ed for the Raw working buffer
(count is decremented once, for the frequency, before newCodeArray). -/
def rawAllocSize (str : List Char) : Nat := countValuesInStr str ',' - 1

/-- Lines 218-224: the number of elements the Raw conversion loop writes. -/
def rawWrittenCount (str : List Char) : Nat :=
  match breakAtComma str with
  | (_, some rest) => ((tokens rest).map toIntU16).length
  | (_, none) => ((tokens str).map toIntU16).length

/- ---------- ir_driver.ino lines 312-520: sendIRCode ---------- -/

/-- Outcome of one case of the dispatch switch: the success flag, the
hardware calls issued, and the final values of the bits and repeat locals
(mutated by the default-bits and minimum-repeat substitutions). -/
structure DispatchOut where
  success : Bool
  calls : List HardwareCall
  bits : Nat
  reps : Nat
  deriving DecidableEq

/-- A switch case with a default bit width and no repeat minimum. -/
def genCase (fn : SendFn) (code : Nat) (bits dflt reps : Nat) : DispatchOut :=
  ⟨true, [HardwareCall.generic fn code (if bits = 0 then dflt else bits) reps],
    (if bits = 0 then dflt else bits), reps⟩

/-- A switch case that additionally raises repeat with std::max. -/
def genCaseMin (fn : SendFn) (code : Nat) (bits dflt reps minRep : Nat) : DispatchOut :=
  ⟨true, [HardwareCall.generic fn code (if bits = 0 then dflt else bits) (Nat.max reps minRep)],
    (if bits = 0 then dflt else bits), Nat.max reps minRep⟩

/-- Lines 323-483: the protocol switch.  The numeric labels are the
decode_type_t values given in the source comments; an id matching no case
falls to the default, which only clears success. -/
def dispatch (irType : Int) (code : Nat) (codeStr : List Char) (bits reps : Nat) : DispatchOut :=
  if irType = 1 then genCase SendFn.sendRC5 code bits kRC5Bits reps
  else if irType = 2 then genCase SendFn.sendRC6 code bits kRC6Mode0Bits reps
  else if irType = 3 then genCase SendFn.sendNEC code bits kNECBits reps
  else if irType = 4 then genCaseMin SendFn.sendSony code bits kSony12Bits reps kSonyMinRepeat
  else if irType = 5 then genCase SendFn.sendPanasonic64 code bits kPanasonicBits reps
  else if irType = 6 then genCase SendFn.sendJVC code bits kJvcBits reps
  else if irType = 7 then genCase SendFn.sendSAMSUNG code bits kSamsungBits reps
  else if irType = 8 then genCase SendFn.sendWhynter code bits kWhynterBits reps
  else if irType = 9 then genCaseMin SendFn.sendAiwaRCT501 code bits kAiwaRcT501Bits reps kAiwaRcT501MinRepeats
  else if irType = 10 then genCase SendFn.sendLG code bits kLgBits reps
  else if irType = 12 then genCaseMin SendFn.sendMitsubishi code bits kMitsubishiBits reps kMitsubishiMinRepeat
  else if irType = 13 then genCaseMin SendFn.sendDISH code bits kDishBits reps kDishMinRepeat
  else if irType = 14 then genCase SendFn.sendSharpRaw code bits kSharpBits reps
  else if irType = 15 then genCase SendFn.sendCOOLIX code bits kCoolixBits reps
  else if irType = 17 then genCase SendFn.sendDenon code bits kDenonBits reps
  else if irType = 19 then genCaseMin SendFn.sendSherwood code bits kSherwoodBits reps kSherwoodMinRepeat
  else if irType = 21 then genCase SendFn.sendRCMM code bits kRCMMBits reps
  else if irType = 22 then genCase SendFn.sendSanyoLC7461 code bits kSanyoLC7461Bits reps
  else if irType = 23 then genCase SendFn.sendRC5 code bits kRC5XBits reps
  else if irType = 25 then
    match parseStringAndSendPronto codeStr reps with
    | (ok, calls) => ⟨ok, calls, bits, reps⟩
  else if irType = 29 then genCase SendFn.sendNikai code bits kNikaiBits reps
  else if irType = 30 then
    match parseStringAndSendRaw codeStr with
    | (ok, calls) => ⟨ok, calls, bits, reps⟩
  else if irType = 31 then
    match parseStringAndSendGC codeStr with
    | (ok, calls) => ⟨ok, calls, bits, reps⟩
  else if irType = 34 then genCase SendFn.sendMidea code bits kMideaBits reps
  else if irType = 35 then genCase SendFn.sendMagiQuest code bits kMagiquestBits reps
  else if irType = 36 then genCase SendFn.sendLasertag code bits kLasertagBits reps
  else if irType = 39 then genCaseMin SendFn.sendMitsubishi2 code bits kMitsubishiBits reps kMitsubishiMinRepeat
  else if irType = 43 then genCaseMin SendFn.sendGICable code bits kGicableBits reps kGicableMinRepeat
  else if irType = 47 then genCase SendFn.sendLutron code bits kLutronBits reps
  else if irType = 50 then genCase SendFn.sendPioneer code bits kPioneerBits reps
  else if irType = 51 then genCase SendFn.sendLG2 code bits kLgBits reps
  else ⟨false, [], bits, reps⟩

/-- Observable events of one sendIRCode run, in program order: the
ir_lock = true assignment, each hardware send, and the ir_lock = false
assignment (line 486, before the result is returned). -/
inductive Event where
  | acquire : Event
  | hw : HardwareCall → Event
  | release : Event
  deriving DecidableEq, BEq

/-- The ir_lock value after a list of events, starting from a given value:
acquire sets it, release clears it, hardware sends leave it alone. -/
def lockStateAfter (b : Bool) (es : List Event) : Bool :=
  es.foldl (fun s e => match e with
    | Event.acquire => true
    | Event.release => false
    | Event.hw _ => s) b

/-- Lines 489-518: the gsCommandString update.  Both the long-form branch
(AC-state, PRONTO, RAW, GLOBALCACHE) and the short-form branch assign the
echo string only under if (success); the PRONTO sub-case reports the
caller-side repeat local (unchanged by the codec) when it is positive. -/
def echoOf (irType : Int) (codeStr : List Char) (code : Nat) (d : DispatchOut) :
    Option (List Char) :=
  if hasACState irType || irType == 25 || irType == 30 || irType == 31 then
    if d.success then
      if irType == 25 && decide (0 < d.reps) then
        some (intToString irType ++ [',', 'R'] ++ natToString d.reps ++ [','] ++ codeStr)
      else some (intToString irType ++ [','] ++ codeStr)
    else none
  else
    if d.success then
      some (intToString irType ++ [','] ++ uint64ToString code 16 ++ [',']
        ++ natToString d.bits ++ [','] ++ natToString d.reps)
    else none

/-- Result of one sendIRCode run: the boolean returned to the caller, the
event trace (lock assignments and hardware sends in program order), the
hardware calls, the final bits/repeat locals, and the gsCommandString
update (none when the string is left untouched). -/
structure SendOutcome where
  success : Bool
  events : List Event
  calls : List HardwareCall
  bitsUsed : Nat
  repsUsed : Nat
  echoUpdate : Option (List Char)
  deriving DecidableEq

/-- Assemble the outcome from the switch result: lines 316-318 set ir_lock
before the switch, line 486 clears it after, and lines 489-518 build the
echo; the function has a single return (line 519). -/
def sendOutcomeOf (irType : Int) (code : Nat) (codeStr : List Char) (d : DispatchOut) :
    SendOutcome :=
  ⟨d.success,
   Event.acquire :: ((d.calls.map Event.hw) ++ [Event.release]),
   d.calls, d.bits, d.reps,
   echoOf irType codeStr code d⟩

/-- ir_driver.ino lines 312-520.  The busy-wait on ir_lock at entry is a
no-op in the single-threaded run (the lock is always false when the
function is entered, since every run clears it before returning). -/
def sendIRCode (irType : Int) (code : Nat) (codeStr : List Char) (bits reps : Nat) :
    SendOutcome :=
  sendOutcomeOf irType code codeStr (dispatch irType code codeStr bits reps)

/- ---------- ir_driver.ino lines 526-562: processCommand ---------- -/

/-- strtok_r over commas: the comma-delimited tokens with empty ones
skipped (strtok treats runs of delimiters as one and skips leading ones). -/
def strtokList (s : List Char) : List (List Char) :=
  (tokens s).filter (fun t => !t.isEmpty)

/-- commandString.substring(indexOf(",") + 1): everything after the first
comma, or the whole string when there is none (indexOf returns -1). -/
def afterFirstComma (s : List Char) : List Char :=
  match breakAtComma s with
  | (_, some rest) => rest
  | (_, none) => s

/-- Lines 526-562: token 1 is the decimal protocol id, token 2 (required,
else return false) is hex-parsed unconditionally into code, tokens 3 and 4
are optional bits and repeats; then sendIRCode on the substring after the
first comma. -/
def processCommand (commandString : List Char) : Bool × Option SendOutcome :=
  match strtokList commandString with
  | t1 :: t2 :: rest =>
      match sendIRCode (atol t1) (getUInt64fromHex t2) (afterFirstComma commandString)
          (match rest with | b :: _ => toIntU16 b | [] => 0)
          (match rest with | _ :: r :: _ => toIntU16 r | _ => 0) with
      | o => (o.success, some o)
  | _ => (false, none)

/- ---------- ir_driver.ino lines 249-279: irDriverLoop ---------- -/

/-- A decoded capture as the loop reads it: decode_type, the
resultToHexidecimal rendering of the decoded code (a library call, taken as
given), the raw tick buffer (entry 0 is the pre-capture gap the loop skips),
and the bit count. -/
structure Capture where
  decodeType : Int
  hexStr : List Char
  rawbuf : List Nat
  bits : Nat
  deriving DecidableEq

/-- Lines 260-263 body for one rawbuf entry, with fuel bounding the inner
while (usecs itself always suffices): while usecs > UINT16_MAX emit
"65535" ",0," and subtract 65535, then emit the remainder in decimal. -/
def chunkAux : Nat → Nat → List Char
  | 0, usecs => uint64ToString usecs 10
  | fuel + 1, usecs =>
      if 65535 < usecs then
        uint64ToString 65535 10 ++ [',', '0', ','] ++ chunkAux fuel (usecs - 65535)
      else uint64ToString usecs 10

/-- The rendering of one duration (rawbuf entry times kRawTick). -/
def chunkDur (usecs : Nat) : List Char := chunkAux usecs usecs

/-- Lines 258-268: the for loop over rawbuf entries 1 .. rawlen-1, with a
comma between consecutive entries (i < rawlen - 1). -/
def rawSeq : List Nat → List Char
  | [] => []
  | [d] => chunkDur (d * kRawTick)
  | d :: d2 :: rest => chunkDur (d * kRawTick) ++ [','] ++ rawSeq (d2 :: rest)

/-- Lines 252-274: gsReceiverString as built by the loop body: decode type,
comma, hex code; for UNKNOWN a semicolon and the raw durations; and for
non-AC protocols a comma and the bit count. -/
def receiveFormat (cap : Capture) : List Char :=
  let s1 := intToString cap.decodeType ++ [','] ++ cap.hexStr
  let s2 := if cap.decodeType = UNKNOWN then s1 ++ [';'] ++ rawSeq (cap.rawbuf.drop 1) else s1
  if hasACState cap.decodeType then s2 else s2 ++ [','] ++ natToString cap.bits

/-- ir_driver.ino lines 249-279.  The first argument mirrors the global
gbDecoderEnabled flag (set by decodeEnableHandler in the sketch); the loop
body never reads it.  The second argument is the irrecv.decode result; the
returned value is the string published on the received property (none when
nothing was decoded). -/
def irDriverLoop (gbDecoderEnabled : Bool) (decoded : Option Capture) : Option (List Char) :=
  match decoded with
  | some cap => some (receiveFormat cap)
  | none => none

/-- sknSensors-IRService.ino lines 193-201 (decodeEnableHandler): reject
values other than "true"/"false", else store the flag and republish the
value.  Returns (handler result, new flag value, published value). -/
def decodeEnableHandler (value : List Char) (flag : Bool) :
    Bool × Bool × Option (List Char) :=
  if value = ['t', 'r', 'u', 'e'] then (true, true, some value)
  else if value = ['f', 'a', 'l', 's', 'e'] then (true, false, some value)
  else (false, flag, none)

/- ---------- specification-side definitions (from spec.md) ---------- -/

/-- Spec 4.5: a duration is emitted as repeated (65535, 0) pairs followed by
the true remainder (fueled like chunkAux; the fuel used is always enough). -/
def expandAux : Nat → Nat → List Nat
  | 0, usecs => [usecs]
  | fuel + 1, usecs =>
      if 65535 < usecs then 65535 :: 0 :: expandAux fuel (usecs - 65535) else [usecs]

/-- The (65535, 0)-pair expansion of one duration. -/
def expandDuration (d : Nat) : List Nat := expandAux d d

/-- Comma-join of a list of strings. -/
def joinComma : List (List Char) → List Char
  | [] => []
  | [x] => x
  | x :: y :: rest => x ++ [','] ++ joinComma (y :: rest)

/-- Spec 4.5: the comma-joined sequence of expanded raw durations. -/
def specRawSeq (durs : List Nat) : List Char :=
  joinComma ((((durs.map (fun d => d * kRawTick)).map expandDuration).flatten).map natToString)

/-- Spec 4.5 / claim C8: decodeType "," hexValue, then for the UNKNOWN
sentinel ";" plus the comma-joined expanded durations, then for non-AC
protocols "," plus the bit count. -/
def specReceiveFormat (cap : Capture) : List Char :=
  intToString cap.decodeType ++ [','] ++ cap.hexStr
    ++ (if cap.decodeType = UNKNOWN then [';'] ++ specRawSeq (cap.rawbuf.drop 1) else [])
    ++ (if hasACState cap.decodeType then [] else [','] ++ natToString cap.bits)

/- ---------- concrete inputs used by the claim checks ---------- -/

/-- The Raw payload "38000" of spec section 8. -/
def rawFailEx : List Char := ['3', '8', '0', '0', '0']

/-- A Pronto payload with five values, one below kProntoMinLength. -/
def prontoFailEx : List Char :=
  ['0', '0', '0', '0', ',', '0', '0', '6', '7', ',', '0', '0', '0', '0', ',',
   '0', '0', '1', '5', ',', '0', '0', '6', '0']

/-- The Pronto body of the spec example "R2,0000,0067,0000,0015,0060,0018". -/
def prontoBody : List Char :=
  ['0', '0', '0', '0', ',', '0', '0', '6', '7', ',', '0', '0', '0', '0', ',',
   '0', '0', '1', '5', ',', '0', '0', '6', '0', ',', '0', '0', '1', '8']

/-- The GlobalCache payload "1,2": two tokens. -/
def gcPairEx : List Char := ['1', ',', '2']

/-- The Raw payload "38000,100": two tokens. -/
def rawPairEx : List Char := ['3', '8', '0', '0', '0', ',', '1', '0', '0']

/-- The GlobalCache payload of spec section 8, "38000,1,1,170,170". -/
def gcEx : List Char :=
  ['3', '8', '0', '0', '0', ',', '1', ',', '1', ',', '1', '7', '0', ',', '1', '7', '0']

/-- A GlobalCache payload that itself begins with the "1:1,1," tag. -/
def gcDup : List Char := gcTag ++ ['0']

/-- A concrete NEC capture (decode type 3). -/
def capEx : Capture := ⟨3, ['A', '9', '0'], [0, 100, 50], 32⟩

/- ==================== theorems ==================== -/

/-- Claim C1 (code bug evaluation): the Raw payload "38000", a single value,
is counted as 2 by countValuesInStr, passes the minimum check, is sent as a
one-element raw array and reported successful; likewise a Pronto payload
with five values (one below kProntoMinLength) is counted as 6, passes the
check and is sent.  The claim (and the comments in the source) say both must
fail before any transmission. -/
theorem c1_raw_single_value_sent :
    parseStringAndSendRaw rawFailEx = (true, [HardwareCall.raw [38000] 1 38000]) ∧
    parseStringAndSendPronto prontoFailEx 7 =
      (true, [HardwareCall.pronto [0, 103, 0, 21, 96] 5 7]) := by decide

/-- Claim C2 (code bug evaluation): for the GlobalCache payload "1,2" the
counting pass countValuesInStr reports 3, so 3 elements are allocated while
the conversion loop writes only 2 tokens; for the Raw payload "38000,100"
the allocation is 2 (count minus the frequency) while the loop writes 1.
The claim says the allocated element count equals the number written. -/
theorem c2_alloc_exceeds_written :
    countValuesInStr gcPairEx ',' = 3 ∧
    gcAllocSize gcPairEx = 3 ∧ gcWrittenCount gcPairEx = 2 ∧
    rawAllocSize rawPairEx = 2 ∧ rawWrittenCount rawPairEx = 1 := by decide

/-- Claim C3 (counterexample): dispatching the unsupported protocol id 9999
returns false and leaves the command-echo string untouched, refuting the
claim that the echo string is updated even when sendIRCode returns false. -/
theorem c3_failure_no_echo :
    (sendIRCode 9999 0 [] 0 0).success = false ∧
    (sendIRCode 9999 0 [] 0 0).echoUpdate = none := by decide

/-- Claim C3 (amended): the command-echo string is updated exactly when
sendIRCode succeeds; every failure path leaves it untouched. -/
theorem c3_echo_only_on_success (irType : Int) (code : Nat) (codeStr : List Char)
    (bits reps : Nat) :
    (sendIRCode irType code codeStr bits reps).echoUpdate = none ↔
      (sendIRCode irType code codeStr bits reps).success = false := by
  have hs : (sendIRCode irType code codeStr bits reps).success =
      (dispatch irType code codeStr bits reps).success := rfl
  have he : (sendIRCode irType code codeStr bits reps).echoUpdate =
      echoOf irType codeStr code (dispatch irType code codeStr bits reps) := rfl
  rw [hs, he]
  cases hd : (dispatch irType code codeStr bits reps).success with
  | false => simp [echoOf, hd]
  | true =>
      simp only [echoOf, hd]
      constructor
      · intro h
        exfalso
        revert h
        split <;> split <;> (try split) <;> simp_all
      · intro h
        simp at h

/-- Claim C4 (counterexample): after the handler stores "false" into
gbDecoderEnabled, a decoded capture is still formatted and a received update
is still published, refuting the claim that the Receive Formatter does not
run when the toggle is disabled. -/
theorem c4_publish_despite_disabled :
    (decodeEnableHandler ['f', 'a', 'l', 's', 'e'] true).2.1 = false ∧
    irDriverLoop false (some capEx) ≠ none := by decide

/-- Claim C4 (amended): decodeEnableHandler stores the flag, but irDriverLoop
never consults it: its output is independent of gbDecoderEnabled, and every
decoded capture is formatted and published. -/
theorem c4_toggle_never_consulted (e1 e2 : Bool) (decoded : Option Capture) :
    irDriverLoop e1 decoded = irDriverLoop e2 decoded ∧
      ∀ cap : Capture, irDriverLoop e1 (some cap) = some (receiveFormat cap) :=
  ⟨by cases decoded <;> rfl, fun _ => rfl⟩

/-- Claim C6: for every protocol of the dispatch switch with a declared
minimum repeat count (SONY, AIWA_RC_T501, MITSUBISHI, DISH, SHERWOOD,
MITSUBISHI2, GICABLE), a requested repeat below the minimum is raised to
exactly the minimum and a requested repeat at or above it is transmitted
unchanged, as shown by the repeat argument of the hardware call. -/
theorem c6_min_repeat_enforced (code : Nat) (codeStr : List Char) (bits r : Nat) :
    (sendIRCode 4 code codeStr bits r).calls =
      [HardwareCall.generic SendFn.sendSony code (if bits = 0 then kSony12Bits else bits)
        (if r < kSonyMinRepeat then kSonyMinRepeat else r)] ∧
    (sendIRCode 9 code codeStr bits r).calls =
      [HardwareCall.generic SendFn.sendAiwaRCT501 code
        (if bits = 0 then kAiwaRcT501Bits else bits)
        (if r < kAiwaRcT501MinRepeats then kAiwaRcT501MinRepeats else r)] ∧
    (sendIRCode 12 code codeStr bits r).calls =
      [HardwareCall.generic SendFn.sendMitsubishi code
        (if bits = 0 then kMitsubishiBits else bits)
        (if r < kMitsubishiMinRepeat then kMitsubishiMinRepeat else r)] ∧
    (sendIRCode 13 code codeStr bits r).calls =
      [HardwareCall.generic SendFn.sendDISH code (if bits = 0 then kDishBits else bits)
        (if r < kDishMinRepeat then kDishMinRepeat else r)] ∧
    (sendIRCode 19 code codeStr bits r).calls =
      [HardwareCall.generic SendFn.sendSherwood code (if bits = 0 then kSherwoodBits else bits)
        (if r < kSherwoodMinRepeat then kSherwoodMinRepeat else r)] ∧
    (sendIRCode 39 code codeStr bits r).calls =
      [HardwareCall.generic SendFn.sendMitsubishi2 code
        (if bits = 0 then kMitsubishiBits else bits)
        (if r < kMitsubishiMinRepeat then kMitsubishiMinRepeat else r)] ∧
    (sendIRCode 43 code codeStr bits r).calls =
      [HardwareCall.generic SendFn.sendGICable code (if bits = 0 then kGicableBits else bits)
        (if r < kGicableMinRepeat then kGicableMinRepeat else r)] := by
  have hmax : ∀ a m : Nat, Nat.max a m = if a < m then m else a := by
    intro a m
    rcases Nat.lt_or_ge a m with h | h
    · rw [if_pos h]
      exact Nat.max_eq_right (Nat.le_of_lt h)
    · rw [if_neg (Nat.not_lt.mpr h)]
      exact Nat.max_eq_left h
  refine ⟨?_, ?_, ?_, ?_, ?_, ?_, ?_⟩
  · rw [show (sendIRCode 4 code codeStr bits r).calls =
        [HardwareCall.generic SendFn.sendSony code (if bits = 0 then kSony12Bits else bits)
          (Nat.max r kSonyMinRepeat)] from rfl, hmax]
  · rw [show (sendIRCode 9 code codeStr bits r).calls =
        [HardwareCall.generic SendFn.sendAiwaRCT501 code
          (if bits = 0 then kAiwaRcT501Bits else bits)
          (Nat.max r kAiwaRcT501MinRepeats)] from rfl, hmax]
  · rw [show (sendIRCode 12 code codeStr bits r).calls =
        [HardwareCall.generic SendFn.sendMitsubishi code
          (if bits = 0 then kMitsubishiBits else bits)
          (Nat.max r kMitsubishiMinRepeat)] from rfl, hmax]
  · rw [show (sendIRCode 13 code codeStr bits r).calls =
        [HardwareCall.generic SendFn.sendDISH code (if bits = 0 then kDishBits else bits)
          (Nat.max r kDishMinRepeat)] from rfl, hmax]
  · rw [show (sendIRCode 19 code codeStr bits r).calls =
        [HardwareCall.generic SendFn.sendSherwood code
          (if bits = 0 then kSherwoodBits else bits)
          (Nat.max r kSherwoodMinRepeat)] from rfl, hmax]
  · rw [show (sendIRCode 39 code codeStr bits r).calls =
        [HardwareCall.generic SendFn.sendMitsubishi2 code
          (if bits = 0 then kMitsubishiBits else bits)
          (Nat.max r kMitsubishiMinRepeat)] from rfl, hmax]
  · rw [show (sendIRCode 43 code codeStr bits r).calls =
        [HardwareCall.generic SendFn.sendGICable code
          (if bits = 0 then kGicableBits else bits)
          (Nat.max r kGicableMinRepeat)] from rfl, hmax]

/-- Claim C7 (counterexample): for a payload that itself begins with the
"1:1,1," tag, prepending another copy of the tag does not parse to the same
result, because stripping removes only one occurrence.  This refutes the
claim as stated for every payload string. -/
theorem c7_double_tag_counterexample :
    parseStringAndSendGC (gcTag ++ gcDup) ≠ parseStringAndSendGC gcDup := by decide

/-- Claim C7 (amended): for every GlobalCache payload that does not itself
begin with "1:1,1,", parsing the payload with the tag prepended gives
exactly the same result (same value sequence, same hardware-send arguments)
as parsing the payload alone. -/
theorem c7_gc_tag_stripped (s : List Char) (h : gcTag.isPrefixOf s = false) :
    parseStringAndSendGC (gcTag ++ s) = parseStringAndSendGC s := by
  have hp : gcTag.isPrefixOf (gcTag ++ s) = true := by
    simp [gcTag, List.isPrefixOf]
  have h1 : gcStrip (gcTag ++ s) = s := by
    unfold gcStrip
    rw [hp]
    simp [gcTag]
  have h2 : gcStrip s = s := by
    unfold gcStrip
    rw [h]
    rfl
  unfold parseStringAndSendGC
  rw [h1, h2]

/-- Claim C7 (witness): the spec section 8 example payload. -/
theorem c7_gc_tag_stripped_witness :
    parseStringAndSendGC (gcTag ++ gcEx) = parseStringAndSendGC gcEx :=
  c7_gc_tag_stripped gcEx (by decide)

/-- Claim C9: on every sendIRCode run, including every failure path, the
event trace starts with the lock acquisition, ends with the lock release,
contains exactly one release, and leaves ir_lock false no matter what it
was before the run. -/
theorem c9_lock_discipline (irType : Int) (code : Nat) (codeStr : List Char)
    (bits reps : Nat) :
    (sendIRCode irType code codeStr bits reps).events.head? = some Event.acquire ∧
    (sendIRCode irType code codeStr bits reps).events.getLast? = some Event.release ∧
    (sendIRCode irType code codeStr bits reps).events.count Event.release = 1 ∧
    ∀ b : Bool, lockStateAfter b (sendIRCode irType code codeStr bits reps).events = false := by
  have he : (sendIRCode irType code codeStr bits reps).events =
      Event.acquire ::
        (((dispatch irType code codeStr bits reps).calls.map Event.hw) ++ [Event.release]) := rfl
  have hb1 : ∀ c : HardwareCall, (Event.hw c == Event.release) = false := fun _ => rfl
  have hb2 : (Event.acquire == Event.release) = false := rfl
  have hb3 : (Event.release == Event.release) = true := rfl
  have hmap : ∀ l : List HardwareCall, (l.map Event.hw).count Event.release = 0 := by
    intro l
    induction l with
    | nil => rfl
    | cons a t ih => simp [List.count_cons, hb1, ih]
  refine ⟨rfl, ?_, ?_, ?_⟩
  · rw [he, ← List.cons_append, List.getLast?_concat]
  · rw [he]
    simp [List.count_cons, List.count_append, hb1, hb2, hb3, hmap]
  · intro b
    rw [he]
    simp [lockStateAfter, List.foldl_append]

/-- The indexOf/substring step on a string whose first comma separates a
known head from a known tail. -/
theorem breakAtComma_no_comma : ∀ (t body : List Char), ',' ∉ t →
    breakAtComma (t ++ ',' :: body) = (t, some body) := by
  intro t
  induction t with
  | nil =>
      intro body _
      simp [breakAtComma]
  | cons a t ih =>
      intro body h
      have ha : ¬(a = ',') := by
        intro hEq
        exact h (by simp [hEq])
      have ht : ',' ∉ t := fun hm => h (by simp [hm])
      simp [breakAtComma, ha, ih body ht]

/-- Claim C5: for every Pronto payload beginning with R or r, the parse
result does not depend on the caller-supplied repeat count, and whenever a
hardware send is issued its value sequence is parsed from the text after
the first comma (the embedded token is excluded) and its repeat count is
the decimal value of the embedded token. -/
theorem c5_pronto_repeat_override (c : Char) (tok body : List Char) (reps1 reps2 : Nat)
    (hc : c = 'R' ∨ c = 'r') (ht : ',' ∉ tok) :
    parseStringAndSendPronto ((c :: tok) ++ ',' :: body) reps1 =
        parseStringAndSendPronto ((c :: tok) ++ ',' :: body) reps2 ∧
      ((parseStringAndSendPronto ((c :: tok) ++ ',' :: body) reps1).2 = [] ∨
        (parseStringAndSendPronto ((c :: tok) ++ ',' :: body) reps1).2 =
          [HardwareCall.pronto ((tokens body).map strtoul16U16)
            ((tokens body).map strtoul16U16).length (toIntU16 tok)]) := by
  have hemb : prontoEmbedded ((c :: tok) ++ ',' :: body) = true := by
    rcases hc with h | h <;> simp [prontoEmbedded, h]
  have hnc : ',' ∉ c :: tok := by
    intro hm
    rcases List.mem_cons.mp hm with h | h
    · rcases hc with h2 | h2 <;> rw [h2] at h <;> exact absurd h.symm (by decide)
    · exact ht h
  have hbreak : breakAtComma ((c :: tok) ++ ',' :: body) = (c :: tok, some body) :=
    breakAtComma_no_comma (c :: tok) body hnc
  have hval : ∀ rp : Nat, parseStringAndSendPronto ((c :: tok) ++ ',' :: body) rp =
      prontoCore body (countValuesInStr ((c :: tok) ++ ',' :: body) ',' - 1) (toIntU16 tok) := by
    intro rp
    unfold parseStringAndSendPronto
    simp only [hemb, hbreak]
    rfl
  constructor
  · rw [hval reps1, hval reps2]
  · rw [hval reps1]
    unfold prontoCore
    by_cases hcnt : countValuesInStr ((c :: tok) ++ ',' :: body) ',' - 1 < kProntoMinLength
    · left
      rw [if_pos hcnt]
    · right
      rw [if_neg hcnt]

/-- Claim C5 (witness): the spec example "R2,0000,0067,0000,0015,0060,0018"
parses identically for caller repeats 0 and 9, and sends the six values
after the R2 token with repeat count 2. -/
theorem c5_pronto_repeat_override_witness :
    parseStringAndSendPronto (('R' :: ['2']) ++ ',' :: prontoBody) 0 =
        parseStringAndSendPronto (('R' :: ['2']) ++ ',' :: prontoBody) 9 ∧
      (parseStringAndSendPronto (('R' :: ['2']) ++ ',' :: prontoBody) 0).2 =
        [HardwareCall.pronto [0, 103, 0, 21, 96, 24] 6 2] := by
  have h := c5_pronto_repeat_override 'R' ['2'] prontoBody 0 9 (Or.inl rfl) (by decide)
  exact ⟨h.1, by decide⟩

/-- The digit loop of getUInt64fromHex computes the value of the leading
hex-digit run, reduced mod 2^64. -/
theorem hexLoop64_run : ∀ (l : List Char) (r : Nat),
    hexLoop64 l (r % 2 ^ 64) =
      (List.takeWhile isHexDigitChar l).foldl (fun a c => a * 16 + hexDigitVal c) r % 2 ^ 64 := by
  intro l
  induction l with
  | nil =>
      intro r
      simp [hexLoop64]
  | cons c t ih =>
      intro r
      by_cases hc : isHexDigitChar c = true
      · have harith : (r % 2 ^ 64 * 16 + hexDigitVal c) % 2 ^ 64 =
            (r * 16 + hexDigitVal c) % 2 ^ 64 := by
          omega
        simp only [hexLoop64, hc, if_true, List.takeWhile_cons, List.foldl_cons]
        rw [harith]
        exact ih (r * 16 + hexDigitVal c)
      · simp [hexLoop64, hc, List.takeWhile_cons]

/-- Claim C10: getUInt64fromHex is a total function of the input string; it
skips an optional 0x/0X, returns the value of the longest leading run of
hex digits reduced mod 2^64 (0 when the run is empty, since hexVal of the
empty list is 0), ignores everything after the run, and its result always
fits in 64 bits — so the unconditional hex parse of the second command
token cannot fail. -/
theorem c10_hex_parse_total (s : List Char) :
    getUInt64fromHex s = hexVal (List.takeWhile isHexDigitChar (strip0x s)) % 2 ^ 64 ∧
    getUInt64fromHex s < 2 ^ 64 := by
  have h := hexLoop64_run (strip0x s) 0
  rw [Nat.zero_mod] at h
  refine ⟨h, ?_⟩
  rw [show getUInt64fromHex s = _ from h]
  exact Nat.mod_lt _ (by norm_num)

/-- The pair expansion of a duration always yields at least one value. -/
theorem expandAux_ne_nil (fuel u : Nat) : expandAux fuel u ≠ [] := by
  cases fuel with
  | zero => simp [expandAux]
  | succ f =>
      simp only [expandAux]
      split <;> simp

/-- Comma-join distributes over append of two nonempty lists. -/
theorem joinComma_append : ∀ (xs ys : List (List Char)), xs ≠ [] → ys ≠ [] →
    joinComma (xs ++ ys) = joinComma xs ++ [','] ++ joinComma ys := by
  intro xs
  induction xs with
  | nil =>
      intro ys h _
      exact absurd rfl h
  | cons x xs ih =>
      intro ys _ hy
      cases xs with
      | nil =>
          cases ys with
          | nil => exact absurd rfl hy
          | cons y ys2 => simp [joinComma]
      | cons x2 xs2 =>
          have hrec : joinComma ((x2 :: xs2) ++ ys) =
              joinComma (x2 :: xs2) ++ [','] ++ joinComma ys := ih ys (by simp) hy
          calc joinComma ((x :: x2 :: xs2) ++ ys)
              = x ++ [','] ++ joinComma ((x2 :: xs2) ++ ys) := rfl
            _ = x ++ [','] ++ (joinComma (x2 :: xs2) ++ [','] ++ joinComma ys) := by
                rw [hrec]
            _ = joinComma (x :: x2 :: xs2) ++ [','] ++ joinComma ys := by
                show _ = (x ++ [','] ++ joinComma (x2 :: xs2)) ++ [','] ++ joinComma ys
                simp [List.append_assoc]

/-- The inner while of the receive loop renders exactly the comma-join of
the (65535, 0)-pair expansion of a duration. -/
theorem chunk_join (fuel : Nat) : ∀ u, chunkAux fuel u =
    joinComma ((expandAux fuel u).map natToString) := by
  induction fuel with
  | zero =>
      intro u
      simp [chunkAux, expandAux, joinComma, natToString]
  | succ f ih =>
      intro u
      by_cases h : 65535 < u
      · simp only [chunkAux, expandAux, if_pos h, List.map_cons]
        rw [ih (u - 65535)]
        cases hm : (expandAux f (u - 65535)).map natToString with
        | nil => exact absurd (List.map_eq_nil_iff.mp hm) (expandAux_ne_nil f (u - 65535))
        | cons z zs =>
            show uint64ToString 65535 10 ++ [',', '0', ','] ++ joinComma (z :: zs) =
              joinComma (natToString 65535 :: natToString 0 :: z :: zs)
            rw [show natToString 0 = ['0'] from rfl,
              show natToString 65535 = uint64ToString 65535 10 from rfl]
            simp [joinComma, List.append_assoc]
      · simp [chunkAux, expandAux, h, joinComma, natToString]

/-- The raw-duration section built by the receive loop equals the
comma-join of the expanded durations prescribed by the spec. -/
theorem rawSeq_eq : ∀ l : List Nat, rawSeq l = specRawSeq l := by
  intro l
  induction l with
  | nil => rfl
  | cons d rest ih =>
      cases rest with
      | nil =>
          show chunkDur (d * kRawTick) = specRawSeq [d]
          rw [chunkDur, chunk_join]
          simp [specRawSeq, expandDuration]
      | cons d2 rest2 =>
          have hA : (expandDuration (d * kRawTick)).map natToString ≠ [] := by
            intro hnil
            exact expandAux_ne_nil _ _ (List.map_eq_nil_iff.mp hnil)
          have hB : (((((d2 :: rest2).map (fun x => x * kRawTick)).map
              expandDuration).flatten).map natToString) ≠ [] := by
            cases hE : expandDuration (d2 * kRawTick) with
            | nil => exact absurd hE (expandAux_ne_nil _ _)
            | cons e es => simp [hE]
          have hstep : specRawSeq (d :: d2 :: rest2) =
              joinComma (((expandDuration (d * kRawTick)).map natToString) ++
                (((((d2 :: rest2).map (fun x => x * kRawTick)).map
                  expandDuration).flatten).map natToString)) := by
            unfold specRawSeq
            rw [List.map_cons, List.map_cons, List.flatten_cons, List.map_append]
          rw [hstep, joinComma_append _ _ hA hB]
          show chunkDur (d * kRawTick) ++ [','] ++ rawSeq (d2 :: rest2) =
            joinComma ((expandDuration (d * kRawTick)).map natToString) ++ [','] ++
              joinComma (((((d2 :: rest2).map (fun x => x * kRawTick)).map
                expandDuration).flatten).map natToString)
          rw [ih, chunkDur, chunk_join, expandDuration]
          rfl

/-- Claim C8: for every captured decode result, the string built by the
receive loop is exactly decodeType "," hexValue, with ";" plus the
comma-joined expanded raw durations appended for the UNKNOWN sentinel, and
"," plus the bit count appended for non-AC protocols, as the spec states. -/
theorem c8_receive_format_spec (cap : Capture) : receiveFormat cap = specReceiveFormat cap := by
  unfold receiveFormat specReceiveFormat
  by_cases h1 : cap.decodeType = UNKNOWN
  · have hAC : hasACState UNKNOWN = false := rfl
    simp [h1, hAC, rawSeq_eq, List.append_assoc]
  · by_cases h2 : hasACState cap.decodeType = true
    · simp [h1, h2, List.append_assoc]
    · simp [h1, h2, List.append_assoc]

end IRService
